import Mathlib

/-!
# Verification of the aeo-nous extraction/compaction core

Shallow embedding of the Nous hook pipeline of `aeo-nous/hooks/nous.py` and
`aeo-nous/hooks/lenses/base.py`: the extraction-cursor store, the inbox
flusher, and the threshold-driven Stop-hook controller.  Filesystem state is
modelled explicitly (file lists, cursor file content); Python string methods
are re-implemented over `List Char` so that every definition evaluates inside
the kernel.  `json.loads` (a CPython library routine, not repository code) is
a parameter `jloads : String → Option Json` of the definitions that parse
fragment contents.
-/

/-! ## CPython string primitives

Models of the `str` methods the source uses: `strip`, `split` (single-char
separator; the source only splits on `"\n"`, `"."` and `"_"`), `replace`,
`startswith`, `endswith` and `int()` conversion.  Implemented over `List Char`
because Lean's builtin `String.splitOn`/`String.trim` do not reduce in the
kernel. -/

/-- Whitespace characters removed by Python `str.strip()`. -/
def isPySpace (c : Char) : Bool :=
  c = ' ' || c = '\t' || c = '\n' || c = '\r' || c = '\x0b' || c = '\x0c'

/-- `str.strip()` on a character list. -/
def pstrip (l : List Char) : List Char :=
  ((l.dropWhile isPySpace).reverse.dropWhile isPySpace).reverse

/-- `str.split(sep)` for a one-character separator (Python semantics:
`"".split(sep) = [""]`, empty pieces are kept). -/
def splitChar (sep : Char) : List Char → List (List Char)
  | [] => [[]]
  | c :: rest =>
      match splitChar sep rest with
      | [] => [[]]
      | cur :: parts => if c = sep then [] :: cur :: parts else (c :: cur) :: parts

/-- Digit-string to `Nat` (helper for `int()`). -/
def digitsToNat (ds : List Char) : Option Nat :=
  if ds ≠ [] && ds.all Char.isDigit then
    some (ds.foldl (fun a c => a * 10 + (c.toNat - 48)) 0)
  else none

/-- Python `int(s)`: optional surrounding whitespace, optional sign, decimal
digits (digit-group underscores are not modelled; the source only parses
plain epoch-second strings). -/
def pyIntChars (l : List Char) : Option Int :=
  match pstrip l with
  | '-' :: ds => (digitsToNat ds).map (fun n => -(n : Int))
  | '+' :: ds => (digitsToNat ds).map (fun n => (n : Int))
  | ds => (digitsToNat ds).map (fun n => (n : Int))

/-- `str.strip()`. -/
def py_strip (s : String) : String := ⟨pstrip s.data⟩

/-- `str.split(sep)` for a one-character separator. -/
def py_split (s : String) (sep : Char) : List String :=
  (splitChar sep s.data).map fun l => ⟨l⟩

/-- `str.startswith(pre)` (also the glob pattern `pre + "*"`). -/
def py_startswith (s pre : String) : Bool := pre.data.isPrefixOf s.data

/-- `str.endswith(suf)`. -/
def py_endswith (s suf : String) : Bool := suf.data.isSuffixOf s.data

/-- Replace every occurrence of `pat` (non-overlapping, left to right) by the
empty string, fuelled structurally for kernel reduction. -/
def replaceDropAux (pat : List Char) : Nat → List Char → List Char
  | _, [] => []
  | 0, l => l
  | fuel + 1, c :: rest =>
      if pat.isPrefixOf (c :: rest) then
        replaceDropAux pat fuel ((c :: rest).drop pat.length)
      else c :: replaceDropAux pat fuel rest

/-- `s.replace(pat, "")`. -/
def py_replace_drop (s pat : String) : String :=
  ⟨replaceDropAux pat.data s.data.length s.data⟩

/-- `int(s)` as used by the source (`None` models a raised `ValueError`). -/
def py_int? (s : String) : Option Int := pyIntChars s.data

/-! ## JSON values

The codomain of `json.loads`.  Numbers are modelled as integers; no claim
depends on float payloads. -/

/-- A parsed JSON value. -/
inductive Json where
  | null : Json
  | bool (b : Bool) : Json
  | num (n : Int) : Json
  | str (s : String) : Json
  | arr (items : List Json) : Json
  | obj (fields : List (String × Json)) : Json

/-! ## Timestamp validation (`nous.py` lines 52-53 and 228-230)

`ISO_TIMESTAMP_PATTERN = ^\d{4}-\d{2}-\d{2}T\d{2}:\d{2}:\d{2}\.\d{3}Z$`,
checked with `re.match`.  `$` also matches just before one trailing newline;
`\d` is modelled as an ASCII digit. -/

/-- Shape check for the anchored ISO-8601 millisecond pattern. -/
def isoShapeMatch : List Char → Bool
  | y1 :: y2 :: y3 :: y4 :: '-' :: m1 :: m2 :: '-' :: d1 :: d2 :: 'T' ::
    h1 :: h2 :: ':' :: n1 :: n2 :: ':' :: s1 :: s2 :: '.' ::
    f1 :: f2 :: f3 :: 'Z' :: rest =>
      [y1, y2, y3, y4, m1, m2, d1, d2, h1, h2, n1, n2, s1, s2, f1, f2, f3].all
        Char.isDigit
      && (rest.isEmpty || rest == ['\n'])
  | _ => false

/-- `_is_valid_iso_timestamp(ts)` from `nous.py` line 228. -/
def is_valid_iso_timestamp (ts : String) : Bool := isoShapeMatch ts.data

/-- Strict lexicographic order on strings by code point, the order in which
fixed-width ISO-8601 timestamps compare chronologically ("earlier than"). -/
def lexLt : List Char → List Char → Bool
  | [], [] => false
  | [], _ :: _ => true
  | _ :: _, [] => false
  | a :: as, b :: bs =>
      if a.toNat < b.toNat then true
      else if b.toNat < a.toNat then false
      else lexLt as bs

/-- `a` names an earlier timestamp than `b` (same fixed ISO format). -/
def iso_earlier (a b : String) : Bool := lexLt a.data b.data

/-! ## Extraction cursor store (`nous.py` lines 270-336)

The cursor file holds one JSON record `{"last_extracted_ts": ts}`.  Its
observable content states: absent, empty, unparseable JSON, JSON without a
truthy `last_extracted_ts`, or a stored timestamp.  `record ""` is read back
as falsy by the walrus test at line 289 and treated like `noTs`. -/

/-- Observable content of a per-project cursor file. -/
inductive CursorFile where
  | missing : CursorFile
  | empty : CursorFile
  | corrupt : CursorFile
  | noTs : CursorFile
  | record (ts : String) : CursorFile
  deriving DecidableEq

/-- `get_extraction_cursor(project_dir)` (lines 270-309): under the lock,
return the stored timestamp if a truthy one exists; otherwise rewrite the
file with the current UTC timestamp `now` and return `now`. -/
def get_extraction_cursor (now : String) : CursorFile → String × CursorFile
  | CursorFile.record ts =>
      if ts = "" then (now, CursorFile.record now) else (ts, CursorFile.record ts)
  | _ => (now, CursorFile.record now)

/-- `write_extraction_cursor(project_dir, ts)` (lines 312-336): validate the
ISO format first; on failure log and perform no write; on success truncate
and rewrite the single-record file. -/
def write_extraction_cursor (ts : String) (c : CursorFile) : CursorFile :=
  if is_valid_iso_timestamp ts then CursorFile.record ts else c

/-! ## Claims C5 and C8: cursor behavior -/

/-- C8: for every cursor state and every string rejected by the ISO-8601
pattern, a cursor set performs no write at all — the previous file content is
preserved unchanged and a subsequent get returns the prior value. -/
theorem c8_invalid_set_preserves (ts now : String) (c : CursorFile)
    (h : is_valid_iso_timestamp ts = false) :
    write_extraction_cursor ts c = c ∧
    get_extraction_cursor now (write_extraction_cursor ts c) =
      get_extraction_cursor now c := by
  have hw : write_extraction_cursor ts c = c := by
    unfold write_extraction_cursor
    simp [h]
  exact ⟨hw, by rw [hw]⟩

/-- Witness for C8 at a concrete malformed timestamp. -/
theorem c8_invalid_set_preserves_witness :
    write_extraction_cursor "not-a-timestamp"
        (CursorFile.record "2024-06-01T00:00:00.000Z") =
      CursorFile.record "2024-06-01T00:00:00.000Z" :=
  (c8_invalid_set_preserves "not-a-timestamp" "2024-07-01T00:00:00.000Z"
    (CursorFile.record "2024-06-01T00:00:00.000Z") (by decide)).1

/-- C5 counterexample: a set whose argument is a format-valid ISO-8601
timestamp EARLIER than the stored value simply overwrites the file, so the
stored cursor timestamp decreases — the claimed monotonic non-decrease fails. -/
theorem c5_monotone_counterexample :
    write_extraction_cursor "2024-01-01T00:00:00.000Z"
        (CursorFile.record "2024-06-01T00:00:00.000Z") =
      CursorFile.record "2024-01-01T00:00:00.000Z" ∧
    iso_earlier "2024-01-01T00:00:00.000Z" "2024-06-01T00:00:00.000Z" = true :=
  ⟨by decide, by decide⟩

/-- C5 amended: a get on a stored cursor returns it without change, and a set
with a malformed timestamp is rejected with the previous value preserved; but
a set with a format-valid timestamp overwrites the stored value
unconditionally, so the store itself does not enforce monotonicity. -/
theorem c5_cursor_behavior_amended (now v ts : String) (c : CursorFile)
    (hv : v ≠ "") :
    get_extraction_cursor now (CursorFile.record v) = (v, CursorFile.record v) ∧
    (is_valid_iso_timestamp ts = false → write_extraction_cursor ts c = c) ∧
    (is_valid_iso_timestamp ts = true →
      write_extraction_cursor ts c = CursorFile.record ts) := by
  refine ⟨?_, ?_, ?_⟩
  · unfold get_extraction_cursor
    simp [hv]
  · intro h
    unfold write_extraction_cursor
    simp [h]
  · intro h
    unfold write_extraction_cursor
    simp [h]

/-- Witness for the amended C5 at concrete inputs: the stored value survives
a get and a malformed set, and a valid set lands verbatim. -/
theorem c5_cursor_behavior_amended_witness :
    get_extraction_cursor "2024-07-01T00:00:00.000Z"
        (CursorFile.record "2024-06-01T00:00:00.000Z") =
      ("2024-06-01T00:00:00.000Z", CursorFile.record "2024-06-01T00:00:00.000Z") ∧
    write_extraction_cursor "bogus" (CursorFile.record "2024-06-01T00:00:00.000Z") =
      CursorFile.record "2024-06-01T00:00:00.000Z" :=
  ⟨(c5_cursor_behavior_amended "2024-07-01T00:00:00.000Z"
      "2024-06-01T00:00:00.000Z" "bogus"
      (CursorFile.record "2024-06-01T00:00:00.000Z") (by decide)).1,
   (c5_cursor_behavior_amended "2024-07-01T00:00:00.000Z"
      "2024-06-01T00:00:00.000Z" "bogus"
      (CursorFile.record "2024-06-01T00:00:00.000Z") (by decide)).2.1 (by decide)⟩

/-! ## Lenses (`lenses/base.py`, `lenses/learnings.py`, `lenses/knowledge.py`)

`ExtractionLens` is a static descriptor.  The flusher only uses the file-name
components of its paths, so the paths are modelled by their final file names;
the pydantic entry schemas are modelled by their field-name lists
(`lenses/models.py` lines 107-126).  The multi-paragraph prompt texts are
abridged to their opening line: no definition below reads the prompt. -/

/-- A lens: a perspective with inbox, encoded store and entry schema. -/
structure ExtractionLens where
  name : String
  prompt : String
  inbox_name : String
  encoded_name : String
  schema : List String

/-- `LEARNINGS_LENS` (`lenses/learnings.py` lines 62-68). -/
def LEARNINGS_LENS : ExtractionLens :=
  { name := "learnings"
    prompt := "Analyze the transcript content from session_context.start_ts through session_context.end_ts."
    inbox_name := "inbox.jsonl"
    encoded_name := "engram.jsonl"
    schema := ["ts", "project", "session", "content", "context", "suggested_target"] }

/-- `KNOWLEDGE_LENS` (`lenses/knowledge.py` lines 49-55). -/
def KNOWLEDGE_LENS : ExtractionLens :=
  { name := "knowledge"
    prompt := "Analyze the transcript content from session_context.start_ts through session_context.end_ts."
    inbox_name := "inbox.jsonl"
    encoded_name := "cortex.jsonl"
    schema := ["ts", "project", "session", "category", "content", "context", "suggested_target"] }

/-- `parse_jsonl(text)` (`base.py` lines 45-60): strip, split on newlines,
strip each line, skip empties, keep every line `json.loads` accepts. -/
def parse_jsonl (jloads : String → Option Json) (text : String) : List Json :=
  (py_split (py_strip text) '\n').filterMap fun line =>
    let line := py_strip line
    if line = "" then none else jloads line

/-! ## Inbox filesystem state and the flusher (`base.py` lines 100-213) -/

/-- A file in a lens inbox directory. -/
structure FSFile where
  name : String
  content : String

/-- State of one lens: its inbox directory and its encoded store.  The
encoded store is the list of entries appended so far, one store line each. -/
structure LensFS where
  dirExists : Bool
  files : List FSFile
  encoded : List Json

/-- `FRAGMENT_MIN_AGE_SECONDS` (`base.py` line 19). -/
def FRAGMENT_MIN_AGE_SECONDS : Int := 2

/-- `path.read_text()`: `none` models a raised `FileNotFoundError`. -/
def readFile? (files : List FSFile) (name : String) : Option String :=
  (files.find? fun f => f.name = name).map FSFile.content

/-- `path.unlink()` on a present file / the guarded
`if path.exists(): path.unlink()` (absent file: no change). -/
def deleteFile (fs : LensFS) (name : String) : LensFS :=
  { fs with files := fs.files.filter fun f => f.name ≠ name }

/-- `fragment.name.split(".")[-1]` (`base.py` line 137). -/
def fragment_suffix (name : String) : String := (py_split name '.').getLastD ""

/-- Fragment age gate (`base.py` lines 139-144): parse the epoch seconds
embedded before the first underscore of the name suffix; skip the fragment
when younger than the minimum age.  A parse failure leaves the age unknown
(`-1`) and the fragment is processed anyway. -/
def fragment_is_young (now : Int) (name : String) : Bool :=
  match py_int? ((py_split (fragment_suffix name) '_').headD "") with
  | some ts => now - ts < FRAGMENT_MIN_AGE_SECONDS
  | none => false

/-- The entries one fragment body yields (`base.py` lines 147 and 168:
`content = fragment.read_text().strip()` then `parse_jsonl(content)`). -/
def fragmentEntries (jloads : String → Option Json) (raw : String) : List Json :=
  parse_jsonl jloads (py_strip raw)

/-- The per-fragment body of the flush loop (`base.py` lines 133-198).  The
accumulator carries the filesystem state and `total_flushed`; every branch of
the source's `try` block ends in `continue`, and an I/O error (here: the
fragment vanished before the read) skips the fragment. -/
def process_fragment (jloads : String → Option Json) (now : Int)
    (acc : LensFS × Nat) (fname : String) : LensFS × Nat :=
  let fs := acc.1
  let total := acc.2
  if fragment_is_young now fname then acc
  else
    match readFile? fs.files fname with
    | none => acc
    | some raw =>
      let content := py_strip raw
      let stderrName := fname ++ ".stderr"
      if content = "" then
        (deleteFile (deleteFile fs fname) stderrName, total)
      else
        let entries := parse_jsonl jloads content
        if entries.isEmpty then
          (deleteFile (deleteFile fs fname) stderrName, total)
        else
          (deleteFile (deleteFile { fs with encoded := fs.encoded ++ entries } fname)
            stderrName, total + entries.length)

/-- Orphaned-stderr reaping (`base.py` lines 200-211): delete a stderr file
whose name-embedded epoch seconds are more than 300 seconds old; any parse
error is swallowed. -/
def reap_orphan_stderr (now : Int) (fs : LensFS) (sname : String) : LensFS :=
  let parts := py_split (py_replace_drop sname ".stderr") '.'
  if parts.length ≥ 2 then
    match py_int? ((py_split (parts.getLastD "") '_').headD "") with
    | some ts => if now - ts > 300 then deleteFile fs sname else fs
    | none => fs
  else fs

/-- `flush_inbox(lens, project_dir)` (`base.py` lines 100-213): glob
`inbox_name.*`, split fragments from `.stderr` siblings, process each
fragment, then reap orphaned stderr files; returns the new state and
`total_flushed`. -/
def flush_inbox (jloads : String → Option Json) (now : Int)
    (lens : ExtractionLens) (fs : LensFS) : LensFS × Nat :=
  if !fs.dirExists then (fs, 0)
  else
    let all_fragments := fs.files.filter fun f =>
      py_startswith f.name (lens.inbox_name ++ ".")
    let fragment_files := all_fragments.filter fun f =>
      !(py_endswith f.name ".stderr")
    let stderr_files := all_fragments.filter fun f => py_endswith f.name ".stderr"
    if fragment_files.isEmpty && stderr_files.isEmpty then (fs, 0)
    else
      let r := fragment_files.foldl
        (fun acc f => process_fragment jloads now acc f.name) (fs, 0)
      (stderr_files.foldl (fun s f => reap_orphan_stderr now s f.name) r.1, r.2)

/-! ## Stop hook controller (`nous.py` lines 418-603)

The worker's observable effects per Stop event: the two lens states, the
cursor file, and which extraction subprocesses were launched.  A launch
(`_fire_extraction_subprocess`, lines 418-470) creates an empty fragment file
and an empty stderr sibling under a fresh id `{epoch}_{pid}_{random}`; the
ids are nondeterministic (time, pid, urandom) and appear as parameters. -/

/-- Observable state handled by one Stop event for one project. -/
structure WorkerState where
  learnings : LensFS
  knowledge : LensFS
  cursor : CursorFile
  transcriptExists : Bool
  spawned : List String

/-- `_fire_extraction_subprocess(lens, ...)` (lines 418-470): make the inbox
directory, create the empty fragment file and its stderr sibling under the
fresh `fragId`, and launch the detached agent (recorded by lens name). -/
def fire_extraction_subprocess (lens : ExtractionLens) (fragId : String)
    (fs : LensFS) : LensFS :=
  { fs with
      dirExists := true
      files := fs.files ++
        [⟨lens.inbox_name ++ "." ++ fragId, ""⟩,
         ⟨lens.inbox_name ++ "." ++ fragId ++ ".stderr", ""⟩] }

/-- `_stop_hook_worker(current, previous, pct, project_dir)` (lines 473-553).
`pct < 70`: flush both inboxes, read the cursor (which may lazily initialize
it), and — only if the transcript exists — launch one subprocess per lens and
advance the cursor to the snapshot timestamp `metaTs`.  `70 ≤ pct < 85` and
`85 ≤ pct` both only flush the two inboxes. -/
def stop_hook_worker (jloads : String → Option Json) (now : Int)
    (nowIso : String) (pct : Int) (metaTs : String)
    (fragId1 fragId2 : String) (w : WorkerState) : WorkerState :=
  if pct < 70 then
    let lf := (flush_inbox jloads now LEARNINGS_LENS w.learnings).1
    let kf := (flush_inbox jloads now KNOWLEDGE_LENS w.knowledge).1
    let g := get_extraction_cursor nowIso w.cursor
    if !w.transcriptExists then
      { w with learnings := lf, knowledge := kf, cursor := g.2 }
    else
      { w with
          learnings := fire_extraction_subprocess LEARNINGS_LENS fragId1 lf
          knowledge := fire_extraction_subprocess KNOWLEDGE_LENS fragId2 kf
          cursor := write_extraction_cursor metaTs g.2
          spawned := w.spawned ++ [LEARNINGS_LENS.name, KNOWLEDGE_LENS.name] }
  else
    { w with
        learnings := (flush_inbox jloads now LEARNINGS_LENS w.learnings).1
        knowledge := (flush_inbox jloads now KNOWLEDGE_LENS w.knowledge).1 }

/-- The JSON response `run_stop_hook` returns for `pct >= 85`
(`nous.py` lines 592-601), printed on stdout by `main` (lines 647-651). -/
structure StopDecision where
  decision : String
  reason : String

/-- The block/clear response body built at lines 593-601. -/
def block_clear_decision (pct : Int) : StopDecision :=
  { decision := "block"
    reason := "Context at " ++ toString pct ++
      "%. Run /clear (not /compact) to start fresh. Learnings have been extracted and will be injected automatically.\n\nOptional: Before clearing, ask Claude for a concise continuation prompt that captures current task state - copy it, /clear, then paste to resume." }

/-- `run_stop_hook(current, previous)` (lines 559-603): below 10% do nothing;
otherwise dispatch the worker; return the block/clear JSON response exactly
when `pct >= 85`, else `None` (empty Stop output). -/
def run_stop_hook (jloads : String → Option Json) (now : Int) (nowIso : String)
    (pct : Int) (metaTs : String) (fragId1 fragId2 : String) (w : WorkerState) :
    WorkerState × Option StopDecision :=
  if pct < 10 then (w, none)
  else
    (stop_hook_worker jloads now nowIso pct metaTs fragId1 fragId2 w,
     if pct ≥ 85 then some (block_clear_decision pct) else none)

/-- A trivial `json.loads` stand-in for closed counterexamples whose inboxes
are empty (its value is never consulted there). -/
def jloadsNone : String → Option Json := fun _ => none

/-- A concrete quiescent project state: empty inboxes, a stored cursor,
an existing transcript. -/
def quietState : WorkerState :=
  { learnings := ⟨true, [], []⟩
    knowledge := ⟨true, [], []⟩
    cursor := CursorFile.record "2024-06-01T00:00:00.000Z"
    transcriptExists := true
    spawned := [] }

/-! ## Claims C1, C2, C6: threshold controller and Stop output -/

/-- C1 counterexample: at `pct = 61` the code is still in its `pct < 70`
extraction branch, so both subprocesses ARE launched — contradicting the
claim that `pct = 61` results in FlushOnly with no extraction subprocess. -/
theorem c1_threshold_61_counterexample :
    (run_stop_hook jloadsNone 0 "2024-07-01T00:00:00.000Z" 61
        "2024-07-01T00:00:00.000Z" "100_1_aa" "100_1_bb" quietState).1.spawned =
      ["learnings", "knowledge"] ∧
    (["learnings", "knowledge"] : List String) ≠ [] :=
  ⟨rfl, by decide⟩

/-- C1 amended: `pct = 9` → Skip (no flush, no launch); `pct = 10`, `60` and
`61` → ExtractAndFlush (both inboxes flushed, then one subprocess launched
per lens and the cursor written); FlushOnly begins at the code's boundary
`pct = 70` (both inboxes flushed, nothing launched, cursor untouched). -/
theorem c1_threshold_boundaries_amended (jloads : String → Option Json)
    (now : Int) (nowIso metaTs fragId1 fragId2 : String) (w : WorkerState)
    (h : w.transcriptExists = true) :
    run_stop_hook jloads now nowIso 9 metaTs fragId1 fragId2 w = (w, none) ∧
    (∀ pct : Int, pct = 10 ∨ pct = 60 ∨ pct = 61 →
      (run_stop_hook jloads now nowIso pct metaTs fragId1 fragId2 w).1 =
        { w with
            learnings := fire_extraction_subprocess LEARNINGS_LENS fragId1
              (flush_inbox jloads now LEARNINGS_LENS w.learnings).1
            knowledge := fire_extraction_subprocess KNOWLEDGE_LENS fragId2
              (flush_inbox jloads now KNOWLEDGE_LENS w.knowledge).1
            cursor := write_extraction_cursor metaTs
              (get_extraction_cursor nowIso w.cursor).2
            spawned := w.spawned ++ ["learnings", "knowledge"] }) ∧
    (run_stop_hook jloads now nowIso 70 metaTs fragId1 fragId2 w).1 =
      { w with
          learnings := (flush_inbox jloads now LEARNINGS_LENS w.learnings).1
          knowledge := (flush_inbox jloads now KNOWLEDGE_LENS w.knowledge).1 } ∧
    (run_stop_hook jloads now nowIso 70 metaTs fragId1 fragId2 w).2 = none := by
  refine ⟨?_, ?_, ?_, ?_⟩
  · unfold run_stop_hook
    rw [if_pos (by norm_num)]
  · intro pct hp
    rcases hp with rfl | rfl | rfl <;>
      · unfold run_stop_hook stop_hook_worker
        rw [if_neg (by norm_num)]
        simp [h, LEARNINGS_LENS, KNOWLEDGE_LENS]
  · unfold run_stop_hook stop_hook_worker
    rw [if_neg (by norm_num)]
    simp
  · unfold run_stop_hook
    rw [if_neg (by norm_num)]
    simp

/-- Witness for the amended C1: at a concrete quiescent state, `pct = 9`
does nothing at all. -/
theorem c1_threshold_boundaries_amended_witness :
    run_stop_hook jloadsNone 0 "2024-07-01T00:00:00.000Z" 9
        "2024-07-01T00:00:00.000Z" "100_1_aa" "100_1_bb" quietState =
      (quietState, none) :=
  (c1_threshold_boundaries_amended jloadsNone 0 "2024-07-01T00:00:00.000Z"
    "2024-07-01T00:00:00.000Z" "100_1_aa" "100_1_bb" quietState rfl).1

/-- C2 counterexample: at `pct = 85` the Stop handler itself returns a
block/clear decision (`decision = "block"`), which `main` prints on the Stop
output — contradicting "in no case contains a block/clear decision". -/
theorem c2_block_emitted_counterexample :
    (run_stop_hook jloadsNone 0 "2024-07-01T00:00:00.000Z" 85
        "2024-07-01T00:00:00.000Z" "100_1_aa" "100_1_bb" quietState).2 =
      some (block_clear_decision 85) ∧
    (block_clear_decision 85).decision = "block" :=
  ⟨rfl, rfl⟩

/-- C2 amended: the Stop output is empty for every `pct < 85`, but for
`pct ≥ 85` this core itself emits the block/clear decision (blocking is not
delegated to an external collaborator in this revision of the code). -/
theorem c2_stop_output_amended (jloads : String → Option Json) (now : Int)
    (nowIso metaTs fragId1 fragId2 : String) (w : WorkerState) (pct : Int) :
    (pct < 85 →
      (run_stop_hook jloads now nowIso pct metaTs fragId1 fragId2 w).2 = none) ∧
    (85 ≤ pct →
      (run_stop_hook jloads now nowIso pct metaTs fragId1 fragId2 w).2 =
        some (block_clear_decision pct)) := by
  unfold run_stop_hook
  constructor
  · intro hlt
    by_cases h10 : pct < 10
    · rw [if_pos h10]
    · rw [if_neg h10]
      have hge : ¬(pct ≥ 85) := by omega
      simp [hge]
  · intro hge
    rw [if_neg (by omega : ¬(pct < 10))]
    simp [hge]

/-- Witness for the amended C2: empty Stop output at `pct = 84`. -/
theorem c2_stop_output_amended_witness :
    (run_stop_hook jloadsNone 0 "2024-07-01T00:00:00.000Z" 84
        "2024-07-01T00:00:00.000Z" "100_1_aa" "100_1_bb" quietState).2 = none :=
  (c2_stop_output_amended jloadsNone 0 "2024-07-01T00:00:00.000Z"
    "2024-07-01T00:00:00.000Z" "100_1_aa" "100_1_bb" quietState 84).1
    (by norm_num)

/-- C6: in the extraction range with a missing transcript, both inboxes are
still flushed, no subprocess is launched, the stored cursor value is left
unchanged, and the Stop output stays empty. -/
theorem c6_missing_transcript_flush_only (jloads : String → Option Json)
    (now : Int) (nowIso metaTs fragId1 fragId2 v : String) (w : WorkerState)
    (pct : Int) (h10 : 10 ≤ pct) (h70 : pct < 70)
    (ht : w.transcriptExists = false) (hc : w.cursor = CursorFile.record v)
    (hv : v ≠ "") :
    (run_stop_hook jloads now nowIso pct metaTs fragId1 fragId2 w).1 =
      { w with
          learnings := (flush_inbox jloads now LEARNINGS_LENS w.learnings).1
          knowledge := (flush_inbox jloads now KNOWLEDGE_LENS w.knowledge).1 } ∧
    (run_stop_hook jloads now nowIso pct metaTs fragId1 fragId2 w).2 = none := by
  unfold run_stop_hook stop_hook_worker
  rw [if_neg (by omega : ¬(pct < 10))]
  constructor
  · rw [if_pos h70]
    simp [ht, hc, get_extraction_cursor, hv]
  · simp [show ¬(pct ≥ 85) by omega]

/-- A quiescent project state whose transcript path does not exist. -/
def quietStateNoTranscript : WorkerState :=
  { quietState with transcriptExists := false }

/-- Witness for C6 at `pct = 45` with a missing transcript. -/
theorem c6_missing_transcript_flush_only_witness :
    (run_stop_hook jloadsNone 0 "2024-07-01T00:00:00.000Z" 45
        "2024-07-01T00:00:00.000Z" "100_1_aa" "100_1_bb"
        quietStateNoTranscript).1 =
      { quietStateNoTranscript with
          learnings := (flush_inbox jloadsNone 0 LEARNINGS_LENS
            quietStateNoTranscript.learnings).1
          knowledge := (flush_inbox jloadsNone 0 KNOWLEDGE_LENS
            quietStateNoTranscript.knowledge).1 } :=
  (c6_missing_transcript_flush_only jloadsNone 0 "2024-07-01T00:00:00.000Z"
    "2024-07-01T00:00:00.000Z" "100_1_aa" "100_1_bb"
    "2024-06-01T00:00:00.000Z" quietStateNoTranscript 45 (by norm_num)
    (by norm_num) rfl rfl (by decide)).1

/-! ## Claim C3: two concurrent flush invocations

`flush_inbox` runs in separate short-lived processes with no lock on the
fragment files (its docstring asserts "No locking needed - each fragment is
processed exactly once").  To examine the race, the per-fragment loop is cut
at its filesystem operations into atomic micro-steps: listing the inbox
(line 120), reading a fragment (line 147), appending its entries under the
store lock (lines 182-188), and unlinking fragment and sibling (lines
191-193; a raised `FileNotFoundError` on the unlink is caught at line 196
and `total_flushed` is not incremented).  The stderr-sibling reads serve
logging only and touch no state. -/

/-- Program counter of one flush process, with its local variables. -/
inductive FPhase where
  | start : FPhase
  | processing (pending : List String) (stderrs : List String) (count : Nat) : FPhase
  | appending (pending : List String) (stderrs : List String) (count : Nat)
      (fname : String) (entries : List Json) : FPhase
  | deleting (pending : List String) (stderrs : List String) (count : Nat)
      (fname : String) (k : Nat) : FPhase
  | reaping (stderrs : List String) (count : Nat) : FPhase
  | finished (count : Nat) : FPhase

/-- One atomic step of a flush process against the shared inbox state. -/
def flusher_step (jloads : String → Option Json) (now : Int)
    (lens : ExtractionLens) (p : FPhase) (fs : LensFS) : FPhase × LensFS :=
  match p with
  | FPhase.start =>
      if !fs.dirExists then (FPhase.finished 0, fs)
      else
        let all := fs.files.filter fun f =>
          py_startswith f.name (lens.inbox_name ++ ".")
        let frags := (all.filter fun f => !(py_endswith f.name ".stderr")).map
          FSFile.name
        let errs := (all.filter fun f => py_endswith f.name ".stderr").map
          FSFile.name
        if frags.isEmpty && errs.isEmpty then (FPhase.finished 0, fs)
        else (FPhase.processing frags errs 0, fs)
  | FPhase.processing [] errs c => (FPhase.reaping errs c, fs)
  | FPhase.processing (n :: rest) errs c =>
      if fragment_is_young now n then (FPhase.processing rest errs c, fs)
      else
        match readFile? fs.files n with
        | none => (FPhase.processing rest errs c, fs)
        | some raw =>
          let content := py_strip raw
          if content = "" then
            (FPhase.processing rest errs c,
             deleteFile (deleteFile fs n) (n ++ ".stderr"))
          else
            let es := parse_jsonl jloads content
            if es.isEmpty then
              (FPhase.processing rest errs c,
               deleteFile (deleteFile fs n) (n ++ ".stderr"))
            else (FPhase.appending rest errs c n es, fs)
  | FPhase.appending rest errs c n es =>
      (FPhase.deleting rest errs c n es.length,
       { fs with encoded := fs.encoded ++ es })
  | FPhase.deleting rest errs c n k =>
      if (readFile? fs.files n).isSome then
        (FPhase.processing rest errs (c + k),
         deleteFile (deleteFile fs n) (n ++ ".stderr"))
      else (FPhase.processing rest errs c, fs)
  | FPhase.reaping [] c => (FPhase.finished c, fs)
  | FPhase.reaping (s :: rest) c =>
      (FPhase.reaping rest c, reap_orphan_stderr now fs s)
  | FPhase.finished _ => (p, fs)

/-- Two flush processes sharing one inbox/encoded-store state. -/
structure TwoFlushers where
  p1 : FPhase
  p2 : FPhase
  fs : LensFS

/-- Let the first (`true`) or second (`false`) process take one step. -/
def sched_step (jloads : String → Option Json) (now : Int)
    (lens : ExtractionLens) (sys : TwoFlushers) (first : Bool) : TwoFlushers :=
  if first then
    let r := flusher_step jloads now lens sys.p1 sys.fs
    { sys with p1 := r.1, fs := r.2 }
  else
    let r := flusher_step jloads now lens sys.p2 sys.fs
    { sys with p2 := r.1, fs := r.2 }

/-- Run an interleaving schedule. -/
def run_sched (jloads : String → Option Json) (now : Int)
    (lens : ExtractionLens) (sched : List Bool) (sys : TwoFlushers) :
    TwoFlushers :=
  sched.foldl (sched_step jloads now lens) sys

/-- `json.loads` behavior on the one-line body used in the race scenario. -/
def jloadsRace : String → Option Json :=
  fun s => if s = "e" then some (Json.str "v") else none

/-- C3 (code bug): over one eligible fragment holding one entry, the
schedule read₁, read₂, append₁, delete₁, append₂, delete₂ makes BOTH flush
invocations append the entry: the encoded store ends with it twice.  The
second delete raises (file already gone) and is caught, but its append has
already happened — "exactly once" fails under this interleaving. -/
theorem c3_duplicate_delivery_at_race :
    run_sched jloadsRace 200 LEARNINGS_LENS
        [true, true, false, false, true, true, true, true,
         false, false, false, false]
        { p1 := FPhase.start, p2 := FPhase.start,
          fs := { dirExists := true,
                  files := [⟨"inbox.jsonl.100_1_ab", "e"⟩],
                  encoded := [] } } =
      { p1 := FPhase.finished 1, p2 := FPhase.finished 0,
        fs := { dirExists := true, files := [],
                encoded := [Json.str "v", Json.str "v"] } } := by
  rfl

/-! ## Helper lemmas about names and fragment processing -/

/-- A prefix of `s` is a prefix of `s ++ t`. -/
theorem py_startswith_append (s t p : String) (h : py_startswith s p = true) :
    py_startswith (s ++ t) p = true := by
  unfold py_startswith at h ⊢
  rw [List.isPrefixOf_iff_prefix] at h ⊢
  rw [String.data_append]
  exact h.trans (List.prefix_append _ _)

/-- Every string of the form `s ++ t` ends with `t`. -/
theorem py_endswith_append_self (s t : String) :
    py_endswith (s ++ t) t = true := by
  unfold py_endswith
  rw [List.isSuffixOf_iff_suffix, String.data_append]
  exact List.suffix_append _ _

/-- A fragment name that does not end in `.stderr` differs from its sibling. -/
theorem append_stderr_ne (s : String) (h : py_endswith s ".stderr" = false) :
    s ++ ".stderr" ≠ s := by
  intro he
  have hx := py_endswith_append_self s ".stderr"
  rw [he, h] at hx
  exact Bool.false_ne_true hx

/-- `parse_jsonl` of the empty string is empty. -/
theorem parse_jsonl_empty (jloads : String → Option Json) :
    parse_jsonl jloads "" = [] := rfl

/-- `filterMap` keeps the length when every element maps to `some`. -/
theorem length_filterMap_all_some {α β : Type} (f : α → Option β) :
    ∀ l : List α, (∀ a ∈ l, (f a).isSome) →
      (l.filterMap f).length = l.length
  | [], _ => rfl
  | a :: t, h => by
      obtain ⟨b, hb⟩ :=
        Option.isSome_iff_exists.mp (h a (List.mem_cons_self a t))
      rw [List.filterMap_cons, hb]
      simp only [List.length_cons]
      rw [length_filterMap_all_some f t fun x hx => h x (List.mem_cons_of_mem a hx)]

/-- Evaluation of the per-fragment body on a readable, old-enough fragment:
its parsed entries are appended and both it and its sibling are deleted. -/
theorem process_fragment_eval (jloads : String → Option Json) (now : Int)
    (fs : LensFS) (t : Nat) (fname raw : String)
    (hyoung : fragment_is_young now fname = false)
    (hread : readFile? fs.files fname = some raw) :
    process_fragment jloads now (fs, t) fname =
      (deleteFile (deleteFile
          { fs with encoded := fs.encoded ++ fragmentEntries jloads raw } fname)
        (fname ++ ".stderr"),
       t + (fragmentEntries jloads raw).length) := by
  unfold process_fragment
  simp only [hyoung, Bool.false_eq_true, if_false, hread]
  by_cases hc : py_strip raw = ""
  · have he : fragmentEntries jloads raw = [] := by
      unfold fragmentEntries
      rw [hc, parse_jsonl_empty]
    simp [hc, he, deleteFile]
  · by_cases hemp : (parse_jsonl jloads (py_strip raw)).isEmpty
    · have he : fragmentEntries jloads raw = [] := by
        unfold fragmentEntries
        exact List.isEmpty_iff.mp hemp
      simp [hc, hemp, he, deleteFile]
    · have he : fragmentEntries jloads raw = parse_jsonl jloads (py_strip raw) := rfl
      simp [hc, hemp, he]

/-- Reaping over a state with no files changes nothing. -/
theorem reap_on_empty (now : Int) (d : Bool) (e : List Json) (s : String) :
    reap_orphan_stderr now ⟨d, [], e⟩ s = ⟨d, [], e⟩ := by
  simp only [reap_orphan_stderr, deleteFile]
  split
  · split
    · split <;> rfl
    · rfl
  · rfl

/-- Flushing an empty inbox returns the state unchanged and 0. -/
theorem flush_empty_inbox (jloads : String → Option Json) (now : Int)
    (lens : ExtractionLens) (d : Bool) (enc : List Json) :
    flush_inbox jloads now lens ⟨d, [], enc⟩ = (⟨d, [], enc⟩, 0) := by
  cases d <;> rfl

/-- One flush of an inbox holding exactly one readable, old-enough fragment
and its stderr sibling: the fragment's parsed entries are appended, both
files are deleted, and the entry count is returned. -/
theorem flush_pair_eval (jloads : String → Option Json) (now : Int)
    (lens : ExtractionLens) (fname content stderrContent : String)
    (enc : List Json)
    (hpre : py_startswith fname (lens.inbox_name ++ ".") = true)
    (hsuf : py_endswith fname ".stderr" = false)
    (hyoung : fragment_is_young now fname = false) :
    flush_inbox jloads now lens
        ⟨true, [⟨fname, content⟩, ⟨fname ++ ".stderr", stderrContent⟩], enc⟩ =
      (⟨true, [], enc ++ fragmentEntries jloads content⟩,
       (fragmentEntries jloads content).length) := by
  have hpre2 : py_startswith (fname ++ ".stderr") (lens.inbox_name ++ ".") = true :=
    py_startswith_append _ _ _ hpre
  have hsuf2 : py_endswith (fname ++ ".stderr") ".stderr" = true :=
    py_endswith_append_self _ _
  have hne : fname ++ ".stderr" ≠ fname := append_stderr_ne _ hsuf
  have hread : readFile?
      ([⟨fname, content⟩, ⟨fname ++ ".stderr", stderrContent⟩] : List FSFile)
      fname = some content := by
    simp [readFile?]
  unfold flush_inbox
  simp only [Bool.not_true, Bool.false_eq_true, if_false,
    List.filter_cons, List.filter_nil, hpre, hpre2, hsuf, hsuf2,
    Bool.not_false, if_true, List.isEmpty_cons, List.foldl_cons, List.foldl_nil]
  rw [process_fragment_eval jloads now
    ⟨true, [⟨fname, content⟩, ⟨fname ++ ".stderr", stderrContent⟩], enc⟩
    0 fname content hyoung hread]
  have hdel : deleteFile (deleteFile
      ⟨true, [⟨fname, content⟩, ⟨fname ++ ".stderr", stderrContent⟩],
        enc ++ fragmentEntries jloads content⟩ fname) (fname ++ ".stderr") =
      ⟨true, [], enc ++ fragmentEntries jloads content⟩ := by
    simp [deleteFile, hne]
  rw [hdel, reap_on_empty]
  simp

/-- One flush of an inbox holding exactly one readable, old-enough fragment
(no sibling): its parsed entries are appended and the fragment is deleted. -/
theorem flush_single_eval (jloads : String → Option Json) (now : Int)
    (lens : ExtractionLens) (fname content : String) (enc : List Json)
    (hpre : py_startswith fname (lens.inbox_name ++ ".") = true)
    (hsuf : py_endswith fname ".stderr" = false)
    (hyoung : fragment_is_young now fname = false) :
    flush_inbox jloads now lens ⟨true, [⟨fname, content⟩], enc⟩ =
      (⟨true, [], enc ++ fragmentEntries jloads content⟩,
       (fragmentEntries jloads content).length) := by
  have hread : readFile? ([⟨fname, content⟩] : List FSFile) fname =
      some content := by
    simp [readFile?]
  unfold flush_inbox
  simp only [Bool.not_true, Bool.false_eq_true, if_false,
    List.filter_cons, List.filter_nil, hpre, hsuf,
    Bool.not_false, if_true, List.isEmpty_cons, List.foldl_cons, List.foldl_nil]
  rw [process_fragment_eval jloads now ⟨true, [⟨fname, content⟩], enc⟩
    0 fname content hyoung hread]
  have hdel : deleteFile (deleteFile
      ⟨true, [⟨fname, content⟩], enc ++ fragmentEntries jloads content⟩ fname)
      (fname ++ ".stderr") = ⟨true, [], enc ++ fragmentEntries jloads content⟩ := by
    simp [deleteFile]
  rw [hdel]
  simp

/-- One flush of an inbox holding exactly one fragment younger than the
minimum age: the state is returned untouched with count 0. -/
theorem flush_single_young (jloads : String → Option Json) (now : Int)
    (lens : ExtractionLens) (fname content : String) (enc : List Json)
    (hpre : py_startswith fname (lens.inbox_name ++ ".") = true)
    (hsuf : py_endswith fname ".stderr" = false)
    (hyoung : fragment_is_young now fname = true) :
    flush_inbox jloads now lens ⟨true, [⟨fname, content⟩], enc⟩ =
      (⟨true, [⟨fname, content⟩], enc⟩, 0) := by
  unfold flush_inbox
  simp only [Bool.not_true, Bool.false_eq_true, if_false,
    List.filter_cons, List.filter_nil, hpre, hsuf,
    Bool.not_false, if_true, List.isEmpty_cons, List.foldl_cons, List.foldl_nil]
  unfold process_fragment
  simp [hyoung]

/-! ## Claims C4, C9, C10: flush functional behavior -/

/-- C4: a single flush of an old-enough fragment whose content is k lines
that all parse as JSON appends exactly k entries (one store line each),
deletes the fragment and its stderr sibling, and a repeat flush over the
same inbox appends nothing further. -/
theorem c4_flush_k_lines (jloads : String → Option Json) (now ts : Int)
    (lens : ExtractionLens) (fname content stderrContent : String)
    (enc : List Json) (k : Nat)
    (hpre : py_startswith fname (lens.inbox_name ++ ".") = true)
    (hsuf : py_endswith fname ".stderr" = false)
    (hts : py_int? ((py_split (fragment_suffix fname) '_').headD "") = some ts)
    (hage : FRAGMENT_MIN_AGE_SECONDS ≤ now - ts)
    (hstrip : py_strip content = content)
    (hlines : ∀ line ∈ py_split content '\n',
      py_strip line ≠ "" ∧ (jloads (py_strip line)).isSome)
    (hk : (py_split content '\n').length = k) :
    flush_inbox jloads now lens
        ⟨true, [⟨fname, content⟩, ⟨fname ++ ".stderr", stderrContent⟩], enc⟩ =
      (⟨true, [], enc ++ fragmentEntries jloads content⟩, k) ∧
    (fragmentEntries jloads content).length = k ∧
    flush_inbox jloads now lens ⟨true, [], enc ++ fragmentEntries jloads content⟩ =
      (⟨true, [], enc ++ fragmentEntries jloads content⟩, 0) := by
  have hyoung : fragment_is_young now fname = false := by
    unfold fragment_is_young
    rw [hts]
    exact decide_eq_false (not_lt.mpr hage)
  have hlen : (fragmentEntries jloads content).length = k := by
    unfold fragmentEntries parse_jsonl
    rw [hstrip, hstrip, ← hk]
    exact length_filterMap_all_some
      (fun line => if py_strip line = "" then none else jloads (py_strip line))
      (py_split content '\n') fun line hl => by
      obtain ⟨h1, h2⟩ := hlines line hl
      simpa [h1] using h2
  refine ⟨?_, hlen, ?_⟩
  · rw [flush_pair_eval jloads now lens fname content stderrContent enc
      hpre hsuf hyoung, hlen]
  · exact flush_empty_inbox jloads now lens true
      (enc ++ fragmentEntries jloads content)

/-- `json.loads` behavior used by the C4/C9 witnesses. -/
def jloadsSeven : String → Option Json :=
  fun s => if s = "7" then some (Json.num 7) else none

/-- Witness for C4: one eligible one-line fragment with its sibling flushes
to exactly one appended entry, with both files removed. -/
theorem c4_flush_k_lines_witness :
    flush_inbox jloadsSeven 200 LEARNINGS_LENS
        ⟨true, [⟨"inbox.jsonl.100_1_ab", "7"⟩,
                ⟨"inbox.jsonl.100_1_ab" ++ ".stderr", "boom"⟩], []⟩ =
      (⟨true, [], [] ++ fragmentEntries jloadsSeven "7"⟩, 1) :=
  (c4_flush_k_lines jloadsSeven 200 100 LEARNINGS_LENS "inbox.jsonl.100_1_ab"
    "7" "boom" [] 1 (by decide) (by decide) (by decide) (by decide) (by decide)
    (by decide) (by decide)).1

/-- C9: a fragment younger than the minimum age is left entirely untouched by
a flush (still present with the same content, nothing appended, count 0), and
the same fragment is consumed by a flush once its age passes the threshold. -/
theorem c9_young_fragment_untouched (jloads : String → Option Json)
    (now now2 ts : Int) (lens : ExtractionLens) (fname content : String)
    (enc : List Json)
    (hpre : py_startswith fname (lens.inbox_name ++ ".") = true)
    (hsuf : py_endswith fname ".stderr" = false)
    (hts : py_int? ((py_split (fragment_suffix fname) '_').headD "") = some ts)
    (hyoung : now - ts < FRAGMENT_MIN_AGE_SECONDS)
    (hold : FRAGMENT_MIN_AGE_SECONDS ≤ now2 - ts) :
    flush_inbox jloads now lens ⟨true, [⟨fname, content⟩], enc⟩ =
      (⟨true, [⟨fname, content⟩], enc⟩, 0) ∧
    flush_inbox jloads now2 lens ⟨true, [⟨fname, content⟩], enc⟩ =
      (⟨true, [], enc ++ fragmentEntries jloads content⟩,
       (fragmentEntries jloads content).length) := by
  have hy : fragment_is_young now fname = true := by
    unfold fragment_is_young
    rw [hts]
    exact decide_eq_true hyoung
  have hy2 : fragment_is_young now2 fname = false := by
    unfold fragment_is_young
    rw [hts]
    exact decide_eq_false (not_lt.mpr hold)
  exact ⟨flush_single_young jloads now lens fname content enc hpre hsuf hy,
         flush_single_eval jloads now2 lens fname content enc hpre hsuf hy2⟩

/-- Witness for C9: a 1-second-old fragment survives a flush untouched and is
consumed 100 seconds later. -/
theorem c9_young_fragment_untouched_witness :
    flush_inbox jloadsSeven 101 LEARNINGS_LENS
        ⟨true, [⟨"inbox.jsonl.100_1_ab", "7"⟩], []⟩ =
      (⟨true, [⟨"inbox.jsonl.100_1_ab", "7"⟩], []⟩, 0) :=
  (c9_young_fragment_untouched jloadsSeven 101 200 100 LEARNINGS_LENS
    "inbox.jsonl.100_1_ab" "7" [] (by decide) (by decide) (by decide)
    (by decide) (by decide)).1

/-- C10: flush never consults the lens's entry schema (changing the schema
field changes nothing), and any value `json.loads` accepts — object or not —
is counted as one flushed entry and appended as one encoded-store line. -/
theorem c10_no_schema_validation (jloads : String → Option Json) (now : Int)
    (lens : ExtractionLens) (s2 : List String) (fname content : String)
    (v : Json) (enc : List Json)
    (hpre : py_startswith fname (lens.inbox_name ++ ".") = true)
    (hsuf : py_endswith fname ".stderr" = false)
    (hyoung : fragment_is_young now fname = false)
    (hv : fragmentEntries jloads content = [v]) :
    (∀ fs : LensFS, flush_inbox jloads now { lens with schema := s2 } fs =
      flush_inbox jloads now lens fs) ∧
    flush_inbox jloads now lens ⟨true, [⟨fname, content⟩], enc⟩ =
      (⟨true, [], enc ++ [v]⟩, 1) := by
  constructor
  · intro fs
    cases lens
    rfl
  · rw [flush_single_eval jloads now lens fname content enc hpre hsuf hyoung, hv]
    rfl

/-- `json.loads` behavior used by the C10 witness: a bare (non-object)
JSON number. -/
def jloadsNumFive : String → Option Json :=
  fun s => if s = "5" then some (Json.num 5) else none

/-- Witness for C10: a fragment line holding the non-object value `5` is
appended verbatim and counted as one flushed entry. -/
theorem c10_no_schema_validation_witness :
    flush_inbox jloadsNumFive 200 LEARNINGS_LENS
        ⟨true, [⟨"inbox.jsonl.100_1_ab", "5"⟩], []⟩ =
      (⟨true, [], [] ++ [Json.num 5]⟩, 1) :=
  (c10_no_schema_validation jloadsNumFive 200 LEARNINGS_LENS []
    "inbox.jsonl.100_1_ab" "5" (Json.num 5) [] (by decide) (by decide)
    (by decide) rfl).2

/-! ## Claim C7: fault isolation in `flush_inbox`

Every per-fragment iteration of `flush_inbox` runs inside
`try: ... except (OSError, FileNotFoundError): continue` (`base.py` lines
134-198), so an I/O error on one fragment skips it and the loop proceeds.
The fault model makes the three fallible operations of the body explicit:
the fragment read (line 147), the locked append (lines 182-188), and the
unlinks (lines 163-165, 176-178, 191-193); a read or append failure leaves
the fragment untouched, an unlink failure after the append leaves the
entries appended but `total_flushed` unincremented, exactly as the source's
exception flow does. -/

/-- Which I/O operations raise, keyed by fragment name. -/
structure IOFaults where
  readFails : String → Bool
  appendFails : String → Bool
  unlinkFails : String → Bool

/-- The per-fragment body under the fault model. -/
def process_fragment_faulty (faults : IOFaults) (jloads : String → Option Json)
    (now : Int) (acc : LensFS × Nat) (fname : String) : LensFS × Nat :=
  let fs := acc.1
  let total := acc.2
  if fragment_is_young now fname then acc
  else if faults.readFails fname then acc
  else
    match readFile? fs.files fname with
    | none => acc
    | some raw =>
      let content := py_strip raw
      let stderrName := fname ++ ".stderr"
      if content = "" then
        if faults.unlinkFails fname then acc
        else (deleteFile (deleteFile fs fname) stderrName, total)
      else
        let entries := parse_jsonl jloads content
        if entries.isEmpty then
          if faults.unlinkFails fname then acc
          else (deleteFile (deleteFile fs fname) stderrName, total)
        else if faults.appendFails fname then acc
        else if faults.unlinkFails fname then
          ({ fs with encoded := fs.encoded ++ entries }, total)
        else
          (deleteFile
            (deleteFile { fs with encoded := fs.encoded ++ entries } fname)
            stderrName, total + entries.length)

/-- `flush_inbox` under the fault model (a fault on a reap unlink is absorbed
by the reaper's own `except` at line 210, leaving the state unchanged). -/
def flush_inbox_faulty (faults : IOFaults) (jloads : String → Option Json)
    (now : Int) (lens : ExtractionLens) (fs : LensFS) : LensFS × Nat :=
  if !fs.dirExists then (fs, 0)
  else
    let all_fragments := fs.files.filter fun f =>
      py_startswith f.name (lens.inbox_name ++ ".")
    let fragment_files := all_fragments.filter fun f =>
      !(py_endswith f.name ".stderr")
    let stderr_files := all_fragments.filter fun f => py_endswith f.name ".stderr"
    if fragment_files.isEmpty && stderr_files.isEmpty then (fs, 0)
    else
      let r := fragment_files.foldl
        (fun acc f => process_fragment_faulty faults jloads now acc f.name) (fs, 0)
      (stderr_files.foldl
        (fun s f =>
          if faults.unlinkFails f.name then s else reap_orphan_stderr now s f.name)
        r.1, r.2)

/-- A file is a fragment the glob-and-split of `flush_inbox` will process. -/
def fragMatches (lens : ExtractionLens) (name : String) : Bool :=
  py_startswith name (lens.inbox_name ++ ".") && !(py_endswith name ".stderr")

/-- Files kept by the comparison run of C7: everything except the fragments
whose simulated read fails. -/
def keepFile (lens : ExtractionLens) (R : String → Bool) (f : FSFile) : Bool :=
  !(fragMatches lens f.name && R f.name)

/-- `find?` by name is unaffected by a filter that keeps that name. -/
theorem find_name_filter (q : FSFile → Bool) (m : String)
    (hq : ∀ f : FSFile, f.name = m → q f = true) :
    ∀ l : List FSFile,
      (l.filter q).find? (fun f => f.name = m) = l.find? (fun f => f.name = m)
  | [] => rfl
  | a :: t => by
      by_cases ha : a.name = m
      · rw [List.filter_cons, if_pos (hq a ha)]
        rw [List.find?_cons_of_pos _ (by simp [ha]),
          List.find?_cons_of_pos _ (by simp [ha])]
      · rw [List.filter_cons]
        by_cases hqa : q a = true
        · rw [if_pos hqa, List.find?_cons_of_neg _ (by simp [ha]),
            List.find?_cons_of_neg _ (by simp [ha])]
          exact find_name_filter q m hq t
        · rw [if_neg hqa, List.find?_cons_of_neg _ (by simp [ha])]
          exact find_name_filter q m hq t

/-- Two filters commute. -/
theorem filter_comm_files (p q : FSFile → Bool) (l : List FSFile) :
    (l.filter p).filter q = (l.filter q).filter p := by
  rw [List.filter_filter, List.filter_filter]
  exact List.filter_congr fun f _ => Bool.and_comm _ _

/-- Deleting a name no `p`-file carries leaves the `p`-sublist unchanged. -/
theorem filter_delete_of_ne (p : FSFile → Bool) (m : String) (l : List FSFile)
    (h : ∀ f : FSFile, p f = true → f.name ≠ m) :
    (l.filter fun f => f.name ≠ m).filter p = l.filter p := by
  rw [List.filter_filter]
  refine List.filter_congr fun f _ => ?_
  by_cases hp : p f = true
  · simp [hp, h f hp]
  · simp [Bool.eq_false_iff.mpr fun hc => hp hc]

/-- A glob fragment never has a `.stderr`-suffixed name. -/
theorem fragMatches_ne_stderr (lens : ExtractionLens) (n m : String)
    (hn : fragMatches lens n = true) : n ≠ m ++ ".stderr" := by
  intro he
  have hx := py_endswith_append_self m ".stderr"
  have h2 : py_endswith n ".stderr" = false := by
    have hp : py_startswith n (lens.inbox_name ++ ".") = true ∧
        (!(py_endswith n ".stderr")) = true := by
      simpa [fragMatches] using hn
    simpa using hp.2
  rw [he, hx] at h2
  exact Bool.noConfusion h2

/-- A glob fragment differs from every `.stderr`-suffixed name. -/
theorem fragMatches_ne_of_stderr (lens : ExtractionLens) (n m : String)
    (hn : fragMatches lens n = true)
    (hm : py_endswith m ".stderr" = true) : n ≠ m := by
  intro he
  have h2 : py_endswith n ".stderr" = false := by
    have hp : py_startswith n (lens.inbox_name ++ ".") = true ∧
        (!(py_endswith n ".stderr")) = true := by
      simpa [fragMatches] using hn
    simpa using hp.2
  rw [he, hm] at h2
  exact Bool.noConfusion h2

/-- Files the comparison run drops are fragments with a failing read; their
names never collide with a non-failing fragment. -/
theorem not_keep_name_ne (lens : ExtractionLens) (R : String → Bool)
    (m : String) (hR : R m = false) :
    ∀ f : FSFile, (!(keepFile lens R f)) = true → f.name ≠ m := by
  intro f hf he
  unfold keepFile at hf
  rw [Bool.not_not] at hf
  have hr : R f.name = true := by
    have hp : fragMatches lens f.name = true ∧ R f.name = true := by
      simpa using hf
    exact hp.2
  rw [he, hR] at hr
  exact Bool.noConfusion hr

/-- Files the comparison run drops are fragments, hence never `.stderr`
siblings. -/
theorem not_keep_name_ne_stderr (lens : ExtractionLens) (R : String → Bool)
    (m : String) :
    ∀ f : FSFile, (!(keepFile lens R f)) = true → f.name ≠ m ++ ".stderr" := by
  intro f hf
  unfold keepFile at hf
  rw [Bool.not_not] at hf
  have hp : fragMatches lens f.name = true ∧ R f.name = true := by simpa using hf
  exact fragMatches_ne_stderr lens f.name m hp.1

/-- Files the comparison run drops are fragments, hence differ from every
`.stderr`-suffixed name. -/
theorem not_keep_name_ne_of_stderr (lens : ExtractionLens) (R : String → Bool)
    (m : String) (hm : py_endswith m ".stderr" = true) :
    ∀ f : FSFile, (!(keepFile lens R f)) = true → f.name ≠ m := by
  intro f hf
  unfold keepFile at hf
  rw [Bool.not_not] at hf
  have hp : fragMatches lens f.name = true ∧ R f.name = true := by simpa using hf
  exact fragMatches_ne_of_stderr lens f.name m hp.1 hm

/-- A fragment whose simulated read raises is skipped without any effect. -/
theorem process_fragment_faulty_skip (R A2 U : String → Bool)
    (jloads : String → Option Json) (now : Int) (acc : LensFS × Nat)
    (fname : String) (hR : R fname = true) :
    process_fragment_faulty ⟨R, A2, U⟩ jloads now acc fname = acc := by
  unfold process_fragment_faulty
  by_cases hy : fragment_is_young now fname = true
  · simp [hy]
  · simp [hy, hR]

/-- The per-fragment body skips a too-young fragment. -/
theorem process_fragment_young (jloads : String → Option Json) (now : Int)
    (acc : LensFS × Nat) (fname : String)
    (hy : fragment_is_young now fname = true) :
    process_fragment jloads now acc fname = acc := by
  unfold process_fragment
  simp [hy]

/-- The per-fragment body skips a fragment whose read finds no file. -/
theorem process_fragment_noread (jloads : String → Option Json) (now : Int)
    (acc : LensFS × Nat) (fname : String)
    (hy : fragment_is_young now fname = false)
    (hr : readFile? acc.1.files fname = none) :
    process_fragment jloads now acc fname = acc := by
  unfold process_fragment
  simp [hy, hr]

/-- The faulty per-fragment body skips a too-young fragment. -/
theorem process_fragment_faulty_young (faults : IOFaults)
    (jloads : String → Option Json) (now : Int) (acc : LensFS × Nat)
    (fname : String) (hy : fragment_is_young now fname = true) :
    process_fragment_faulty faults jloads now acc fname = acc := by
  unfold process_fragment_faulty
  simp [hy]

/-- The faulty per-fragment body skips a fragment whose read finds no file. -/
theorem process_fragment_faulty_noread (R A2 U : String → Bool)
    (jloads : String → Option Json) (now : Int) (acc : LensFS × Nat)
    (fname : String) (hy : fragment_is_young now fname = false)
    (hR : R fname = false) (hr : readFile? acc.1.files fname = none) :
    process_fragment_faulty ⟨R, A2, U⟩ jloads now acc fname = acc := by
  unfold process_fragment_faulty
  simp [hy, hR, hr]

/-- With no fault firing for this fragment, the faulty body evaluates exactly
like the plain body. -/
theorem process_fragment_faulty_eval (R : String → Bool)
    (jloads : String → Option Json) (now : Int) (fs : LensFS) (t : Nat)
    (fname raw : String) (hyoung : fragment_is_young now fname = false)
    (hR : R fname = false) (hread : readFile? fs.files fname = some raw) :
    process_fragment_faulty ⟨R, fun _ => false, fun _ => false⟩ jloads now
        (fs, t) fname =
      (deleteFile (deleteFile
          { fs with encoded := fs.encoded ++ fragmentEntries jloads raw } fname)
        (fname ++ ".stderr"),
       t + (fragmentEntries jloads raw).length) := by
  unfold process_fragment_faulty
  simp only [hyoung, Bool.false_eq_true, if_false, hR, hread]
  by_cases hc : py_strip raw = ""
  · have he : fragmentEntries jloads raw = [] := by
      unfold fragmentEntries
      rw [hc, parse_jsonl_empty]
    simp [hc, he, deleteFile]
  · by_cases hemp : (parse_jsonl jloads (py_strip raw)).isEmpty
    · have he : fragmentEntries jloads raw = [] := by
        unfold fragmentEntries
        exact List.isEmpty_iff.mp hemp
      simp [hc, hemp, he, deleteFile]
    · have he : fragmentEntries jloads raw = parse_jsonl jloads (py_strip raw) := rfl
      simp [hc, hemp, he]

/-- Invariant between the faulty run and the comparison run: equal counts,
equal encoded stores, equal directory flags, and the comparison state's files
are exactly the faulty state's files minus the read-failing fragments. -/
def FlushRel (lens : ExtractionLens) (R : String → Bool)
    (a b : LensFS × Nat) : Prop :=
  a.2 = b.2 ∧ a.1.encoded = b.1.encoded ∧ a.1.dirExists = b.1.dirExists ∧
  b.1.files = a.1.files.filter (keepFile lens R)

/-- Processing one non-failing fragment preserves the invariant and leaves
the read-failing fragments untouched. -/
theorem process_step_rel (jloads : String → Option Json) (now : Int)
    (lens : ExtractionLens) (R : String → Bool) (a b : LensFS × Nat)
    (fname : String) (hR : R fname = false)
    (hrel : FlushRel lens R a b) :
    FlushRel lens R
      (process_fragment_faulty ⟨R, fun _ => false, fun _ => false⟩
        jloads now a fname)
      (process_fragment jloads now b fname) ∧
    (process_fragment_faulty ⟨R, fun _ => false, fun _ => false⟩
        jloads now a fname).1.files.filter (fun f => !(keepFile lens R f)) =
      a.1.files.filter (fun f => !(keepFile lens R f)) := by
  obtain ⟨h1, h2, h3, h4⟩ := hrel
  have hkeep : ∀ g : FSFile, g.name = fname → keepFile lens R g = true := by
    intro g hg
    unfold keepFile
    rw [hg, hR]
    simp
  have hfind : readFile? b.1.files fname = readFile? a.1.files fname := by
    unfold readFile?
    rw [h4, find_name_filter (keepFile lens R) fname hkeep]
  by_cases hy : fragment_is_young now fname = true
  · rw [process_fragment_faulty_young _ jloads now a fname hy,
      process_fragment_young jloads now b fname hy]
    exact ⟨⟨h1, h2, h3, h4⟩, rfl⟩
  · have hy2 : fragment_is_young now fname = false := Bool.eq_false_iff.mpr hy
    cases hraw : readFile? a.1.files fname with
    | none =>
        rw [process_fragment_faulty_noread R _ _ jloads now a fname hy2 hR hraw,
          process_fragment_noread jloads now b fname hy2 (hfind.trans hraw)]
        exact ⟨⟨h1, h2, h3, h4⟩, rfl⟩
    | some raw =>
        obtain ⟨A, ta⟩ := a
        obtain ⟨B, tb⟩ := b
        simp only at h1 h2 h3 h4 hraw hfind
        rw [process_fragment_faulty_eval R jloads now A ta fname raw hy2 hR hraw,
          process_fragment_eval jloads now B tb fname raw hy2 (hfind.trans hraw)]
        refine ⟨⟨?_, ?_, ?_, ?_⟩, ?_⟩
        · simp [h1]
        · simp [deleteFile, h2]
        · simp [deleteFile, h3]
        · simp only [deleteFile]
          rw [h4, filter_comm_files (keepFile lens R) (fun f => f.name ≠ fname),
            filter_comm_files (keepFile lens R)
              (fun f => f.name ≠ (fname ++ ".stderr"))]
        · simp only [deleteFile]
          rw [filter_delete_of_ne _ _ _ (not_keep_name_ne_stderr lens R fname),
            filter_delete_of_ne _ _ _ (not_keep_name_ne lens R fname hR)]

/-- The invariant is preserved by the whole fragment loop: the faulty run
over all globbed fragments matches the plain run over the non-failing ones. -/
theorem fold_process_rel (jloads : String → Option Json) (now : Int)
    (lens : ExtractionLens) (R : String → Bool) :
    ∀ (l : List FSFile) (a b : LensFS × Nat),
      (∀ f ∈ l, fragMatches lens f.name = true) →
      FlushRel lens R a b →
      FlushRel lens R
        (l.foldl (fun acc f =>
          process_fragment_faulty ⟨R, fun _ => false, fun _ => false⟩
            jloads now acc f.name) a)
        ((l.filter fun f => keepFile lens R f).foldl
          (fun acc f => process_fragment jloads now acc f.name) b) ∧
      (l.foldl (fun acc f =>
          process_fragment_faulty ⟨R, fun _ => false, fun _ => false⟩
            jloads now acc f.name) a).1.files.filter
        (fun f => !(keepFile lens R f)) =
        a.1.files.filter (fun f => !(keepFile lens R f))
  | [], a, b, _, hrel => ⟨hrel, rfl⟩
  | f :: t, a, b, hall, hrel => by
      have hf := hall f (List.mem_cons_self f t)
      by_cases hR : R f.name = true
      · have hkf : keepFile lens R f = false := by
          unfold keepFile
          rw [hf, hR]
          rfl
        rw [List.filter_cons, if_neg (by simp [hkf])]
        rw [List.foldl_cons,
          process_fragment_faulty_skip R _ _ jloads now a f.name hR]
        exact fold_process_rel jloads now lens R t a b
          (fun g hg => hall g (List.mem_cons_of_mem f hg)) hrel
      · have hRf : R f.name = false := Bool.eq_false_iff.mpr hR
        have hkf : keepFile lens R f = true := by
          unfold keepFile
          rw [hRf]
          simp
        rw [List.filter_cons, if_pos hkf, List.foldl_cons, List.foldl_cons]
        obtain ⟨hstep, hproj⟩ :=
          process_step_rel jloads now lens R a b f.name hRf hrel
        obtain ⟨hrec, hproj2⟩ := fold_process_rel jloads now lens R t _ _
          (fun g hg => hall g (List.mem_cons_of_mem f hg)) hstep
        exact ⟨hrec, hproj2.trans hproj⟩

/-- Deleting a name carried by no read-failing fragment preserves the file
relation and the read-failing fragments. -/
theorem delete_one_rel (lens : ExtractionLens) (R : String → Bool)
    (A B : LensFS) (m : String)
    (hnk : ∀ f : FSFile, (!(keepFile lens R f)) = true → f.name ≠ m)
    (h2 : A.encoded = B.encoded) (h3 : A.dirExists = B.dirExists)
    (h4 : B.files = A.files.filter (keepFile lens R)) :
    (deleteFile A m).encoded = (deleteFile B m).encoded ∧
    (deleteFile A m).dirExists = (deleteFile B m).dirExists ∧
    (deleteFile B m).files = (deleteFile A m).files.filter (keepFile lens R) ∧
    (deleteFile A m).files.filter (fun f => !(keepFile lens R f)) =
      A.files.filter (fun f => !(keepFile lens R f)) := by
  refine ⟨by simp [deleteFile, h2], by simp [deleteFile, h3], ?_, ?_⟩
  · simp only [deleteFile]
    rw [h4]
    exact filter_comm_files (keepFile lens R) (fun f => f.name ≠ m) A.files
  · simp only [deleteFile]
    exact filter_delete_of_ne _ m A.files hnk

/-- One reap step over a `.stderr` name preserves the relation. -/
theorem reap_step_rel (now : Int) (lens : ExtractionLens) (R : String → Bool)
    (A B : LensFS) (m : String) (hm : py_endswith m ".stderr" = true)
    (h2 : A.encoded = B.encoded) (h3 : A.dirExists = B.dirExists)
    (h4 : B.files = A.files.filter (keepFile lens R)) :
    (reap_orphan_stderr now A m).encoded =
      (reap_orphan_stderr now B m).encoded ∧
    (reap_orphan_stderr now A m).dirExists =
      (reap_orphan_stderr now B m).dirExists ∧
    (reap_orphan_stderr now B m).files =
      (reap_orphan_stderr now A m).files.filter (keepFile lens R) ∧
    (reap_orphan_stderr now A m).files.filter (fun f => !(keepFile lens R f)) =
      A.files.filter (fun f => !(keepFile lens R f)) := by
  unfold reap_orphan_stderr
  by_cases hp : (py_split (py_replace_drop m ".stderr") '.').length ≥ 2
  · simp only [if_pos hp]
    cases hint : py_int?
        (((py_split ((py_split (py_replace_drop m ".stderr") '.').getLastD "")
          '_').headD "")) with
    | none => exact ⟨h2, h3, h4, by trivial⟩
    | some ts =>
        by_cases hage : now - ts > 300
        · simp only [if_pos hage]
          exact delete_one_rel lens R A B m
            (not_keep_name_ne_of_stderr lens R m hm) h2 h3 h4
        · simp only [if_neg hage]
          exact ⟨h2, h3, h4, by trivial⟩
  · simp only [if_neg hp]
    exact ⟨h2, h3, h4, by trivial⟩

/-- The whole reap loop preserves the relation. -/
theorem reap_fold_rel (now : Int) (lens : ExtractionLens) (R : String → Bool) :
    ∀ (sl : List FSFile) (A B : LensFS),
      (∀ f ∈ sl, py_endswith f.name ".stderr" = true) →
      A.encoded = B.encoded → A.dirExists = B.dirExists →
      B.files = A.files.filter (keepFile lens R) →
      (sl.foldl (fun s f => reap_orphan_stderr now s f.name) A).encoded =
        (sl.foldl (fun s f => reap_orphan_stderr now s f.name) B).encoded ∧
      (sl.foldl (fun s f => reap_orphan_stderr now s f.name) A).dirExists =
        (sl.foldl (fun s f => reap_orphan_stderr now s f.name) B).dirExists ∧
      (sl.foldl (fun s f => reap_orphan_stderr now s f.name) B).files =
        (sl.foldl (fun s f => reap_orphan_stderr now s f.name) A).files.filter
          (keepFile lens R) ∧
      (sl.foldl (fun s f => reap_orphan_stderr now s f.name) A).files.filter
          (fun f => !(keepFile lens R f)) =
        A.files.filter (fun f => !(keepFile lens R f))
  | [], A, B, _, h2, h3, h4 => ⟨h2, h3, h4, rfl⟩
  | f :: t, A, B, hall, h2, h3, h4 => by
      obtain ⟨g2, g3, g4, gproj⟩ := reap_step_rel now lens R A B f.name
        (hall f (List.mem_cons_self f t)) h2 h3 h4
      rw [List.foldl_cons, List.foldl_cons]
      obtain ⟨r2, r3, r4, rproj⟩ := reap_fold_rel now lens R t _ _
        (fun g hg => hall g (List.mem_cons_of_mem f hg)) g2 g3 g4
      exact ⟨r2, r3, r4, rproj.trans gproj⟩

/-- `flush_inbox` on an existing directory equals its two folds (the early
return for an empty glob coincides with folding over empty lists). -/
theorem flush_inbox_as_folds (jloads : String → Option Json) (now : Int)
    (lens : ExtractionLens) (st : LensFS) (hdir : st.dirExists = true) :
    flush_inbox jloads now lens st =
      (((st.files.filter fun f =>
            py_startswith f.name (lens.inbox_name ++ ".")).filter fun f =>
            py_endswith f.name ".stderr").foldl
          (fun s f => reap_orphan_stderr now s f.name)
          (((st.files.filter fun f =>
              py_startswith f.name (lens.inbox_name ++ ".")).filter fun f =>
              !(py_endswith f.name ".stderr")).foldl
            (fun acc f => process_fragment jloads now acc f.name) (st, 0)).1,
       (((st.files.filter fun f =>
            py_startswith f.name (lens.inbox_name ++ ".")).filter fun f =>
            !(py_endswith f.name ".stderr")).foldl
          (fun acc f => process_fragment jloads now acc f.name) (st, 0)).2) := by
  unfold flush_inbox
  rw [hdir]
  simp only [Bool.not_true, Bool.false_eq_true, if_false]
  by_cases he : (((st.files.filter fun f =>
        py_startswith f.name (lens.inbox_name ++ ".")).filter fun f =>
        !(py_endswith f.name ".stderr")).isEmpty &&
      ((st.files.filter fun f =>
        py_startswith f.name (lens.inbox_name ++ ".")).filter fun f =>
        py_endswith f.name ".stderr").isEmpty) = true
  · rw [if_pos he]
    have hp := he
    simp only [Bool.and_eq_true] at hp
    have h1 := List.isEmpty_iff.mp hp.1
    have h2 := List.isEmpty_iff.mp hp.2
    rw [h1, h2]
    rfl
  · rw [if_neg he]

/-- `flush_inbox_faulty` with only read faults, as its two folds. -/
theorem flush_inbox_faulty_as_folds (R : String → Bool)
    (jloads : String → Option Json) (now : Int) (lens : ExtractionLens)
    (st : LensFS) (hdir : st.dirExists = true) :
    flush_inbox_faulty ⟨R, fun _ => false, fun _ => false⟩ jloads now lens st =
      (((st.files.filter fun f =>
            py_startswith f.name (lens.inbox_name ++ ".")).filter fun f =>
            py_endswith f.name ".stderr").foldl
          (fun s f => reap_orphan_stderr now s f.name)
          (((st.files.filter fun f =>
              py_startswith f.name (lens.inbox_name ++ ".")).filter fun f =>
              !(py_endswith f.name ".stderr")).foldl
            (fun acc f =>
              process_fragment_faulty ⟨R, fun _ => false, fun _ => false⟩
                jloads now acc f.name) (st, 0)).1,
       (((st.files.filter fun f =>
            py_startswith f.name (lens.inbox_name ++ ".")).filter fun f =>
            !(py_endswith f.name ".stderr")).foldl
          (fun acc f =>
            process_fragment_faulty ⟨R, fun _ => false, fun _ => false⟩
              jloads now acc f.name) (st, 0)).2) := by
  unfold flush_inbox_faulty
  rw [hdir]
  simp only [Bool.not_true, Bool.false_eq_true, if_false]
  by_cases he : (((st.files.filter fun f =>
        py_startswith f.name (lens.inbox_name ++ ".")).filter fun f =>
        !(py_endswith f.name ".stderr")).isEmpty &&
      ((st.files.filter fun f =>
        py_startswith f.name (lens.inbox_name ++ ".")).filter fun f =>
        py_endswith f.name ".stderr").isEmpty) = true
  · rw [if_pos he]
    have hp := he
    simp only [Bool.and_eq_true] at hp
    have h1 := List.isEmpty_iff.mp hp.1
    have h2 := List.isEmpty_iff.mp hp.2
    rw [h1, h2]
    rfl
  · rw [if_neg he]

/-- Read-fault isolation: an I/O error while reading an individual fragment
is caught, that fragment alone is skipped (it survives untouched), the
remaining fragments are processed exactly as a flush without the failed ones
would process them, and the returned count is the total flushed across all
surviving fragments. -/
theorem flush_read_fault_isolation (jloads : String → Option Json) (now : Int)
    (lens : ExtractionLens) (R : String → Bool) (fs : LensFS) :
    (flush_inbox_faulty ⟨R, fun _ => false, fun _ => false⟩
        jloads now lens fs).2 =
      (flush_inbox jloads now lens
        { fs with files := fs.files.filter (keepFile lens R) }).2 ∧
    (flush_inbox_faulty ⟨R, fun _ => false, fun _ => false⟩
        jloads now lens fs).1.encoded =
      (flush_inbox jloads now lens
        { fs with files := fs.files.filter (keepFile lens R) }).1.encoded ∧
    (flush_inbox jloads now lens
        { fs with files := fs.files.filter (keepFile lens R) }).1.files =
      (flush_inbox_faulty ⟨R, fun _ => false, fun _ => false⟩
        jloads now lens fs).1.files.filter (keepFile lens R) ∧
    (∀ f ∈ fs.files, fragMatches lens f.name = true → R f.name = true →
      f ∈ (flush_inbox_faulty ⟨R, fun _ => false, fun _ => false⟩
        jloads now lens fs).1.files) := by
  by_cases hdt : fs.dirExists = true
  case neg =>
      have hd : fs.dirExists = false := Bool.eq_false_iff.mpr hdt
      have hf1 : flush_inbox_faulty ⟨R, fun _ => false, fun _ => false⟩
          jloads now lens fs = (fs, 0) := by
        unfold flush_inbox_faulty
        simp [hd]
      have hf2 : flush_inbox jloads now lens
          { fs with files := fs.files.filter (keepFile lens R) } =
          ({ fs with files := fs.files.filter (keepFile lens R) }, 0) := by
        unfold flush_inbox
        simp [hd]
      rw [hf1, hf2]
      exact ⟨rfl, rfl, rfl, fun f hf _ _ => hf⟩
  case pos =>
      have hd : fs.dirExists = true := hdt
      have hstd : ({ fs with files := fs.files.filter (keepFile lens R) } :
          LensFS).dirExists = true := hd
      rw [flush_inbox_faulty_as_folds R jloads now lens fs hd,
        flush_inbox_as_folds jloads now lens _ hstd]
      dsimp only
      have hfragC : ((fs.files.filter (keepFile lens R)).filter (fun f =>
            py_startswith f.name (lens.inbox_name ++ "."))).filter (fun f =>
            !(py_endswith f.name ".stderr")) =
          ((fs.files.filter (fun f =>
            py_startswith f.name (lens.inbox_name ++ "."))).filter (fun f =>
            !(py_endswith f.name ".stderr"))).filter
            (fun f => keepFile lens R f) := by
        rw [filter_comm_files (keepFile lens R)
          (fun f => py_startswith f.name (lens.inbox_name ++ "."))]
        exact filter_comm_files (keepFile lens R)
          (fun f => !(py_endswith f.name ".stderr")) _
      have hstdC : ((fs.files.filter (keepFile lens R)).filter (fun f =>
            py_startswith f.name (lens.inbox_name ++ "."))).filter (fun f =>
            py_endswith f.name ".stderr") =
          (fs.files.filter (fun f =>
            py_startswith f.name (lens.inbox_name ++ "."))).filter (fun f =>
            py_endswith f.name ".stderr") := by
        rw [filter_comm_files (keepFile lens R)
          (fun f => py_startswith f.name (lens.inbox_name ++ "."))]
        rw [filter_comm_files (keepFile lens R)
          (fun f => py_endswith f.name ".stderr")]
        refine List.filter_eq_self.mpr ?_
        intro f hfm
        have hsst : py_endswith f.name ".stderr" = true :=
          (List.mem_filter.mp hfm).2
        unfold keepFile fragMatches
        rw [hsst]
        simp
      rw [hfragC, hstdC]
      have hallFrag : ∀ f ∈ (fs.files.filter (fun f =>
          py_startswith f.name (lens.inbox_name ++ "."))).filter (fun f =>
          !(py_endswith f.name ".stderr")), fragMatches lens f.name = true := by
        intro f hfm
        have h1 := (List.mem_filter.mp hfm).2
        have h0 := (List.mem_filter.mp (List.mem_filter.mp hfm).1).2
        unfold fragMatches
        rw [h0, h1]
        rfl
      have hallStd : ∀ f ∈ (fs.files.filter (fun f =>
          py_startswith f.name (lens.inbox_name ++ "."))).filter (fun f =>
          py_endswith f.name ".stderr"), py_endswith f.name ".stderr" = true :=
        fun f hfm => (List.mem_filter.mp hfm).2
      obtain ⟨⟨hc1, hc2, hc3, hc4⟩, hproj⟩ :=
        fold_process_rel jloads now lens R
          ((fs.files.filter (fun f =>
            py_startswith f.name (lens.inbox_name ++ "."))).filter (fun f =>
            !(py_endswith f.name ".stderr")))
          (fs, 0) ({ fs with files := fs.files.filter (keepFile lens R) }, 0)
          hallFrag ⟨rfl, rfl, rfl, rfl⟩
      obtain ⟨hr2, hr3, hr4, hrproj⟩ :=
        reap_fold_rel now lens R
          ((fs.files.filter (fun f =>
            py_startswith f.name (lens.inbox_name ++ "."))).filter (fun f =>
            py_endswith f.name ".stderr"))
          _ _ hallStd hc2 hc3 hc4
      refine ⟨hc1, hr2, hr4, ?_⟩
      intro f hf hm hR2
      have hnk : (!(keepFile lens R f)) = true := by
        unfold keepFile
        rw [hm, hR2]
        rfl
      have hmem : f ∈ fs.files.filter (fun g => !(keepFile lens R g)) :=
        List.mem_filter.mpr ⟨hf, hnk⟩
      rw [← hproj] at hmem
      rw [← hrproj] at hmem
      exact (List.mem_filter.mp hmem).1

/-- C7 counterexample: when the unlink after a successful append raises (the
fragment was claimed by a concurrent flush between the read and the unlink —
the very case the claim cites), the fragment is NOT skipped: its entry is
already appended to the encoded store, yet the returned count is 0 and the
fragment is still in the inbox.  So neither "that fragment alone is skipped"
nor "returns the total number of entries flushed across all fragments" holds
for this I/O error. -/
theorem c7_unlink_failure_counterexample :
    flush_inbox_faulty ⟨fun _ => false, fun _ => false, fun _ => true⟩
        jloadsSeven 200 LEARNINGS_LENS
        ⟨true, [⟨"inbox.jsonl.100_1_ab", "7"⟩], []⟩ =
      (⟨true, [⟨"inbox.jsonl.100_1_ab", "7"⟩], [Json.num 7]⟩, 0) := by
  rfl

/-- C7 amended: flush never raises under any fault oracle and the loop always
continues with the remaining fragments; a failure of the read or of the
locked append of an individual fragment skips that fragment alone — it
survives untouched and the rest are processed exactly as a flush without the
failed ones, with the count totaling the survivors — but a failed unlink
after a successful append is only caught: the fragment's entries are already
in the encoded store, the returned count excludes them, and the fragment
remains in the inbox. -/
theorem c7_fault_handling_amended (jloads : String → Option Json) (now : Int)
    (lens : ExtractionLens) (fs0 : LensFS) (t : Nat) (fname raw : String)
    (hy : fragment_is_young now fname = false)
    (hread : readFile? fs0.files fname = some raw)
    (hne : (fragmentEntries jloads raw).isEmpty = false) :
    (∀ (R : String → Bool) (fs : LensFS),
      (flush_inbox_faulty ⟨R, fun _ => false, fun _ => false⟩
          jloads now lens fs).2 =
        (flush_inbox jloads now lens
          { fs with files := fs.files.filter (keepFile lens R) }).2 ∧
      (flush_inbox_faulty ⟨R, fun _ => false, fun _ => false⟩
          jloads now lens fs).1.encoded =
        (flush_inbox jloads now lens
          { fs with files := fs.files.filter (keepFile lens R) }).1.encoded ∧
      (flush_inbox jloads now lens
          { fs with files := fs.files.filter (keepFile lens R) }).1.files =
        (flush_inbox_faulty ⟨R, fun _ => false, fun _ => false⟩
          jloads now lens fs).1.files.filter (keepFile lens R) ∧
      (∀ f ∈ fs.files, fragMatches lens f.name = true → R f.name = true →
        f ∈ (flush_inbox_faulty ⟨R, fun _ => false, fun _ => false⟩
          jloads now lens fs).1.files)) ∧
    (∀ A : String → Bool, A fname = true →
      process_fragment_faulty ⟨fun _ => false, A, fun _ => false⟩
        jloads now (fs0, t) fname = (fs0, t)) ∧
    (∀ U : String → Bool, U fname = true →
      process_fragment_faulty ⟨fun _ => false, fun _ => false, U⟩
        jloads now (fs0, t) fname =
        ({ fs0 with encoded := fs0.encoded ++ fragmentEntries jloads raw }, t)) := by
  have hc : ¬(py_strip raw = "") := by
    intro hc0
    have he : fragmentEntries jloads raw = [] := by
      unfold fragmentEntries
      rw [hc0, parse_jsonl_empty]
    rw [he] at hne
    exact Bool.noConfusion hne
  have hemp : ¬((parse_jsonl jloads (py_strip raw)).isEmpty = true) := by
    intro hx
    exact Bool.noConfusion (hne.symm.trans hx)
  refine ⟨fun R fs => flush_read_fault_isolation jloads now lens R fs, ?_, ?_⟩
  · intro A hA
    unfold process_fragment_faulty
    simp [hy, hread, hc, hemp, hA]
  · intro U hU
    unfold process_fragment_faulty
    simp only [hy, Bool.false_eq_true, if_false, hread]
    simp [hc, hemp, hU]
    rfl

/-- Witness for the amended C7 at a concrete one-fragment inbox: an append
failure skips the fragment with no effect, and an unlink failure leaves the
entry appended while returning it uncounted. -/
theorem c7_fault_handling_amended_witness :
    process_fragment_faulty ⟨fun _ => false, fun _ => true, fun _ => false⟩
        jloadsSeven 200 (⟨true, [⟨"inbox.jsonl.100_1_ab", "7"⟩], []⟩, 0)
        "inbox.jsonl.100_1_ab" =
      ((⟨true, [⟨"inbox.jsonl.100_1_ab", "7"⟩], []⟩ : LensFS), 0) ∧
    process_fragment_faulty ⟨fun _ => false, fun _ => false, fun _ => true⟩
        jloadsSeven 200 (⟨true, [⟨"inbox.jsonl.100_1_ab", "7"⟩], []⟩, 0)
        "inbox.jsonl.100_1_ab" =
      ({ (⟨true, [⟨"inbox.jsonl.100_1_ab", "7"⟩], []⟩ : LensFS) with
          encoded := [] ++ fragmentEntries jloadsSeven "7" }, 0) :=
  ⟨(c7_fault_handling_amended jloadsSeven 200 LEARNINGS_LENS
      ⟨true, [⟨"inbox.jsonl.100_1_ab", "7"⟩], []⟩ 0 "inbox.jsonl.100_1_ab" "7"
      (by decide) (by decide) (by decide)).2.1 (fun _ => true) rfl,
   (c7_fault_handling_amended jloadsSeven 200 LEARNINGS_LENS
      ⟨true, [⟨"inbox.jsonl.100_1_ab", "7"⟩], []⟩ 0 "inbox.jsonl.100_1_ab" "7"
      (by decide) (by decide) (by decide)).2.2 (fun _ => true) rfl⟩
